import Mathlib

/-!
Verification of the message-release ("relay") pipeline of the mailpit API
(`server/apiv1/api.go`, function `ReleaseMessage`).

The embedding models:
* the raw stored message as a header block (an ordered list of name/value
  fields) plus a body, per the data model in the specification (§3);
* the header-rewriting helpers `tools.RemoveMessageHeaders` and
  `tools.UpdateMessageHeader` (repository code not included in the sources,
  modelled from the specification §4.3);
* the address parsing of Go's `net/mail` package (`ParseAddress`,
  `ParseAddressList`, `Header.AddressList`), which the pipeline uses for
  recipient validation and sender resolution;
* the `ReleaseMessage` handler itself, with the message store, the
  clock, the unique-id generator and the SMTP transport passed in as
  explicit parameters, and every transport invocation recorded.
-/

namespace Mailpit

/-- A single RFC 5322 header field: a name/value pair.  Multiple fields may
share a name; the order of fields in `RawMessage.headers` is the order in the
original message bytes. -/
structure HeaderField where
  name : String
  value : String
deriving DecidableEq, Repr

/-- A structured view of a raw stored message: the header block (in original
order) and the body.  Per spec §4.3 / §9 the byte-splicing header rewriter may
equivalently be modelled as a structured header list re-serialized on output,
provided untouched fields are preserved exactly; this structure is that model. -/
structure RawMessage where
  headers : List HeaderField
  body : String
deriving DecidableEq, Repr

/-- The characters of a header name lowercased (ASCII), matching the
case-insensitive canonicalization of Go's textproto header keys. -/
def lowerName (s : String) : List Char :=
  s.data.map Char.toLower

/-- Case-insensitive equality of header names. -/
def eqCI (a b : String) : Bool :=
  lowerName a == lowerName b

/-- Modelled from the spec: `tools.RemoveMessageHeaders` (§4.3 Remove) —
delete every header field whose name matches, case-insensitively, any name in
the given set; all other fields and the body are unchanged. -/
def removeHeadersList (names : List String) (hs : List HeaderField) : List HeaderField :=
  hs.filter (fun h => !(names.any (fun n => eqCI n h.name)))

/-- Modelled from the spec: `tools.RemoveMessageHeaders` lifted to a message. -/
def removeMessageHeaders (m : RawMessage) (names : List String) : RawMessage :=
  { m with headers := removeHeadersList names m.headers }

/-- Replace the value of the first field named `name` (case-insensitively) and
drop any later duplicates of that name; helper for `upsertHeaders`. -/
def replaceFirstHeader (name value : String) : List HeaderField → List HeaderField
  | [] => []
  | h :: t =>
    if eqCI h.name name then ⟨h.name, value⟩ :: removeHeadersList [name] t
    else h :: replaceFirstHeader name value t

/-- Modelled from the spec: `tools.UpdateMessageHeader` (§4.3 Upsert) — if one
or more fields with the name exist, replace the first occurrence's value and
remove any later duplicates; otherwise append a new field at the end of the
header block. -/
def upsertHeaders (name value : String) (hs : List HeaderField) : List HeaderField :=
  if hs.any (fun h => eqCI h.name name) then replaceFirstHeader name value hs
  else hs ++ [⟨name, value⟩]

/-- Modelled from the spec: `tools.UpdateMessageHeader` lifted to a message. -/
def updateMessageHeader (m : RawMessage) (name value : String) : RawMessage :=
  { m with headers := upsertHeaders name value m.headers }

/-- Models Go `mail.Header.Get`: the value of the first header field with the
given name (case-insensitively), or `""` when no such field exists. -/
def getHeaderValue (m : RawMessage) (key : String) : String :=
  match m.headers.find? (fun h => eqCI h.name key) with
  | some h => h.value
  | none => ""

/-- Models the source's `msg = append([]byte("Return-Path: <...>\r\n"), msg...)`:
prepend a header field at the very start of the message. -/
def prependHeader (m : RawMessage) (h : HeaderField) : RawMessage :=
  { m with headers := h :: m.headers }

/-- A parsed mail address, models Go `mail.Address`: display name plus the
address-only (`local@domain`) form. -/
structure GoAddress where
  name : String
  address : String
deriving DecidableEq, Repr

/-- Character codes of the RFC 5322 atom specials accepted by Go
`net/mail`'s `isAtext` (the characters of the string of specials used
there). -/
def atextSpecialCodes : List Nat :=
  [33, 35, 36, 37, 38, 39, 42, 43, 45, 47, 61, 63, 94, 95, 96, 123, 124, 125, 126]

/-- Models Go `net/mail` `isAtext`: alphanumeric, one of the atom specials,
or a dot when `dot` is set. -/
def isAtext (dot : Bool) (c : Char) : Bool :=
  c.isAlphanum || atextSpecialCodes.contains c.toNat || (dot && c == '.')

/-- Models Go `net/mail` `addrParser.skipSpace`: drop leading spaces and
tabs.  Comment (CFWS) skipping is not modelled; no input used in this
development contains parenthesised comments. -/
def skipSpace (s : List Char) : List Char :=
  s.dropWhile (fun c => c == ' ' || c == '\t')

/-- Whether a character list contains two consecutive dots. -/
def hasDotDot : List Char → Bool
  | c1 :: c2 :: rest => (c1 == '.' && c2 == '.') || hasDotDot (c2 :: rest)
  | _ => false

/-- Models Go `net/mail` `addrParser.consumeAtom`: the longest prefix of atom
characters; rejects an empty atom and, when not permissive, leading, trailing
or doubled dots. -/
def consumeAtom (dot permissive : Bool) (s : List Char) :
    Except String (String × List Char) :=
  let a := s.takeWhile (isAtext dot)
  if a.isEmpty then .error "mail: invalid string"
  else if !permissive &&
      (a.head? == some '.' || a.getLast? == some '.' || hasDotDot a) then
    .error "mail: leading dot, double dot or trailing dot in atom"
  else .ok (String.mk a, s.drop a.length)

/-- Body of a quoted string after the opening quote: characters up to the
closing quote, with backslash escapes; models the relevant part of Go
`net/mail` `consumeQuotedString`. -/
def consumeQuotedBody (fuel : Nat) (acc : List Char) (s : List Char) :
    Except String (String × List Char) :=
  match fuel with
  | 0 => .error "mail: fuel exhausted"
  | fuel + 1 =>
    match s with
    | [] => .error "mail: unclosed quoted-string"
    | c :: rest =>
      if c == '"' then .ok (String.mk acc.reverse, rest)
      else if c == '\\' then
        match rest with
        | [] => .error "mail: bad escape in quoted-string"
        | d :: rest2 => consumeQuotedBody fuel (d :: acc) rest2
      else consumeQuotedBody fuel (c :: acc) rest

/-- Models Go `net/mail` `consumeQuotedString`: an opening quote followed by
the quoted body. -/
def consumeQuotedString (fuel : Nat) (s : List Char) :
    Except String (String × List Char) :=
  match s with
  | '"' :: rest => consumeQuotedBody fuel [] rest
  | _ => .error "mail: missing opening quote"

/-- Models Go `net/mail` `consumeAddrSpec`: local part (dot-atom or quoted
string), `@`, then a dot-atom domain (domain literals are not modelled; no
input used here contains them). -/
def consumeAddrSpec (fuel : Nat) (s0 : List Char) :
    Except String (String × List Char) :=
  let s := skipSpace s0
  match s with
  | [] => .error "mail: no addr-spec"
  | c :: _ =>
    let localRes :=
      if c == '"' then consumeQuotedString fuel s else consumeAtom true false s
    match localRes with
    | .error e => .error e
    | .ok (localPart, s1) =>
      match s1 with
      | '@' :: s2 =>
        let s3 := skipSpace s2
        match s3 with
        | [] => .error "mail: no domain in addr-spec"
        | _ =>
          match consumeAtom true false s3 with
          | .error e => .error e
          | .ok (domain, s4) => .ok (localPart ++ "@" ++ domain, s4)
      | _ => .error "mail: missing @ in addr-spec"

/-- Word loop of Go `net/mail` `consumePhrase`: accumulate atoms (permissive)
or quoted strings separated by whitespace, stopping at the first character
that starts neither. -/
def consumePhraseWords (fuel : Nat) (acc : List String) (s : List Char) :
    List String × List Char :=
  match fuel with
  | 0 => (acc.reverse, s)
  | fuel + 1 =>
    let s1 := skipSpace s
    let wordRes :=
      match s1 with
      | '"' :: _ => consumeQuotedString fuel s1
      | _ => consumeAtom true true s1
    match wordRes with
    | .error _ => (acc.reverse, s1)
    | .ok (w, s2) => consumePhraseWords fuel (w :: acc) s2

/-- Models Go `net/mail` `consumePhrase`: at least one word, joined by single
spaces. -/
def consumePhrase (fuel : Nat) (s : List Char) :
    Except String (String × List Char) :=
  let (words, s1) := consumePhraseWords fuel [] s
  if words.isEmpty then .error "mail: missing phrase"
  else .ok (String.intercalate " " words, s1)

mutual

/-- Models Go `net/mail` `addrParser.parseAddress`: try `addr-spec` first;
otherwise parse an optional display name, then either a group (when
`handleGroup` is set and a colon follows) or an angle-addr. -/
def parseAddress (fuel : Nat) (handleGroup : Bool) (s0 : List Char) :
    Except String (List GoAddress × List Char) :=
  match fuel with
  | 0 => .error "mail: fuel exhausted"
  | fuel + 1 =>
    let s := skipSpace s0
    if s.isEmpty then .error "mail: no address"
    else
      match consumeAddrSpec fuel s with
      | .ok (spec, s1) => .ok ([⟨"", spec⟩], skipSpace s1)
      | .error _ =>
        let dispRes :=
          if s.head? == some '<' then Except.ok ("", s)
          else consumePhrase fuel s
        match dispRes with
        | .error e => .error e
        | .ok (displayName, s1) =>
          if handleGroup && s1.head? == some ':' then
            consumeGroupList fuel (s1.drop 1)
          else
            match s1 with
            | '<' :: s2 =>
              match consumeAddrSpec fuel s2 with
              | .error e => .error e
              | .ok (spec, s3) =>
                match s3 with
                | '>' :: s4 => .ok ([⟨displayName, spec⟩], s4)
                | _ => .error "mail: unclosed angle-addr"
            | _ => .error "mail: no angle-addr"

/-- Models Go `net/mail` `consumeGroupList`: an empty group (`;` immediately)
yields an empty address list WITH NO ERROR; otherwise the comma-separated
group members up to `;`. -/
def consumeGroupList (fuel : Nat) (s0 : List Char) :
    Except String (List GoAddress × List Char) :=
  match fuel with
  | 0 => .error "mail: fuel exhausted"
  | fuel + 1 =>
    let s := skipSpace s0
    match s with
    | ';' :: rest => .ok ([], skipSpace rest)
    | _ => consumeGroupMembers fuel [] s

/-- Member loop of `consumeGroupList`. -/
def consumeGroupMembers (fuel : Nat) (acc : List GoAddress) (s0 : List Char) :
    Except String (List GoAddress × List Char) :=
  match fuel with
  | 0 => .error "mail: fuel exhausted"
  | fuel + 1 =>
    match parseAddress fuel false s0 with
    | .error e => .error e
    | .ok (addrs, s1) =>
      let s2 := skipSpace s1
      match s2 with
      | ';' :: rest => .ok (acc ++ addrs, skipSpace rest)
      | ',' :: rest => consumeGroupMembers fuel (acc ++ addrs) rest
      | _ => .error "mail: expected comma or semicolon in group"

end

mutual

/-- Models the loop of Go `net/mail` `parseAddressList`: skip obsolete empty
entries, parse an address (or group), and continue after commas. -/
def parseAddressListAux (fuel : Nat) (acc : List GoAddress) (s0 : List Char) :
    Except String (List GoAddress) :=
  match fuel with
  | 0 => .error "mail: fuel exhausted"
  | fuel + 1 =>
    let s := skipSpace s0
    match s with
    | ',' :: rest => parseAddressListAux fuel acc rest
    | _ =>
      match parseAddress fuel true s with
      | .error e => .error e
      | .ok (addrs, s1) =>
        let acc2 := acc ++ addrs
        let s2 := skipSpace s1
        match s2 with
        | [] => .ok acc2
        | ',' :: rest => afterListComma fuel acc2 rest
        | _ => .error "mail: expected comma"

/-- Models the skip-empty-entries loop after a comma in Go `net/mail`
`parseAddressList` (input ending in trailing commas yields the list so far). -/
def afterListComma (fuel : Nat) (acc : List GoAddress) (s0 : List Char) :
    Except String (List GoAddress) :=
  match fuel with
  | 0 => .error "mail: fuel exhausted"
  | fuel + 1 =>
    let s := skipSpace s0
    match s with
    | [] => .ok acc
    | ',' :: rest => afterListComma fuel acc rest
    | _ => parseAddressListAux fuel acc s

end

/-- Models Go `mail.ParseAddressList` applied to a header value. -/
def parseAddressListTop (v : String) : Except String (List GoAddress) :=
  parseAddressListAux (v.length * 2 + 8) [] v.toList

/-- Models Go `mail.ParseAddress` (`parseSingleAddress`): a single address
with nothing following; an empty group or a group of several addresses is
rejected. -/
def parseSingleAddressTop (v : String) : Except String GoAddress :=
  match parseAddress (v.length * 2 + 8) true v.toList with
  | .error e => .error e
  | .ok (addrs, s1) =>
    if !(skipSpace s1).isEmpty then .error "mail: expected single address"
    else
      match addrs with
      | [] => .error "mail: empty group"
      | [a] => .ok a
      | _ => .error "mail: group with multiple addresses"

/-- Models Go `mail.Header.AddressList`: `ErrHeaderNotPresent` when the
header value is empty (as in Go, a missing header and a present-but-empty
header are indistinguishable through `Header.Get`), else parse the value as
an address list. -/
def addressListOf (m : RawMessage) (key : String) : Except String (List GoAddress) :=
  let v := getHeaderValue m key
  if v = "" then .error "mail: header not in message"
  else parseAddressListTop v

/-- The stored raw bytes fetched for a message id: either bytes that
`mail.ReadMessage` cannot parse into header block + body, or a well-formed
message.  Modelled from the spec: `mail.ReadMessage` and the
`MalformedMessage` failure kind (§7) — parse internals are outside the
supplied sources, so parse failure is represented abstractly by the
`malformed` constructor. -/
inductive StoredMessage where
  | malformed
  | wellFormed (m : RawMessage)
deriving DecidableEq, Repr

/-- The process-wide relay configuration (`config.SMTPRelayConfig` as read by
`ReleaseMessage`): the optional recipient allowlist
(`AllowedRecipientsRegexp`, modelled as a predicate on the address-only
string) and the `ReturnPath` override (`""` when unset, as in the source). -/
structure RelayConfig where
  allowedRecipients : Option (String → Bool)
  returnPath : String

/-- The failure kinds of a release, mirroring the early returns of
`ReleaseMessage` (spec §7 taxonomy).  `senderIndexOutOfRange` marks the
run-time out-of-bounds access `senders[0]` on an empty parsed `Sender`
address list (a Go panic, not an HTTP error). -/
inductive RelayError where
  | notFound
  | invalidAddress (addr : String)
  | recipientNotAllowed (addr : String)
  | emptyRecipientList
  | malformedMessage
  | noSenderFound
  | senderIndexOutOfRange
  | deliveryFailed (e : String)
deriving DecidableEq, Repr

/-- One invocation of the outbound transport `smtpd.Send(from, data.To, msg)`:
envelope sender, envelope recipients, and the message handed over. -/
structure SendCall where
  mfrom : String
  rcpt : List String
  msg : RawMessage
deriving DecidableEq, Repr

/-- The recipient-validation loop of `ReleaseMessage`
(`for _, to := range data.To`): each string must parse via
`mail.ParseAddress`; with an allowlist configured, the parsed address-only
form must match it.  Returns the first failure, or `none`. -/
def validateRecipients (cfg : RelayConfig) : List String → Option RelayError
  | [] => none
  | toAddr :: rest =>
    match parseSingleAddressTop toAddr with
    | .error _ => some (.invalidAddress toAddr)
    | .ok a =>
      match cfg.allowedRecipients with
      | some pat =>
        if pat a.address then validateRecipients cfg rest
        else some (.recipientNotAllowed toAddr)
      | none => validateRecipients cfg rest

/-- The header rewrites of `ReleaseMessage` in source order: remove `Bcc`;
when a `Return-Path` override is configured and the message's `Return-Path`
differs from `<override>`, remove `Return-Path` and prepend the new field;
then upsert `Date` with the formatted current time and `Message-Id` with
`"<" ++ shortuuid ++ "@mailpit" ++ ">"`. -/
def rewriteForRelay (m : RawMessage) (cfg : RelayConfig) (dateNow sUUID : String) :
    RawMessage :=
  let msg1 := removeMessageHeaders m ["Bcc"]
  let msg2 :=
    if cfg.returnPath = "" then msg1
    else if getHeaderValue m "Return-Path" = "<" ++ cfg.returnPath ++ ">" then msg1
    else
      prependHeader (removeMessageHeaders msg1 ["Return-Path"])
        ⟨"Return-Path", "<" ++ cfg.returnPath ++ ">"⟩
  let msg3 := updateMessageHeader msg2 "Date" dateNow
  updateMessageHeader msg3 "Message-Id" ("<" ++ sUUID ++ "@mailpit" ++ ">")

/-- The tail of `ReleaseMessage` once the header-derived sender is known:
the `Return-Path` override forces the envelope sender, the rewritten message
is built, and `smtpd.Send` is invoked (its result modelled by `sendErr`).
The returned list records the transport invocations of the run. -/
def dispatchRelease (m : RawMessage) (mfrom0 : String) (rcpts : List String)
    (cfg : RelayConfig) (dateNow sUUID : String) (sendErr : Option String) :
    List SendCall × Except RelayError Unit :=
  let mfrom := if cfg.returnPath = "" then mfrom0 else cfg.returnPath
  let call : SendCall := ⟨mfrom, rcpts, rewriteForRelay m cfg dateNow sUUID⟩
  match sendErr with
  | some e => ([call], .error (.deliveryFailed e))
  | none => ([call], .ok ())

/-- The `ReleaseMessage` handler (server/apiv1/api.go), with its
collaborators as parameters: `stored` is the result of
`storage.GetMessageRaw` combined with `mail.ReadMessage` (absent, malformed,
or well-formed), `to` the decoded request body's recipient list, `cfg` the
relay configuration, `dateNow` the formatted current time, `sUUID` the
generated short uuid, and `sendErr` the transport outcome.  Returns the
recorded transport invocations and the handler outcome. -/
def releaseMessage (stored : Option StoredMessage) (rcpts : List String)
    (cfg : RelayConfig) (dateNow sUUID : String) (sendErr : Option String) :
    List SendCall × Except RelayError Unit :=
  match stored with
  | none => ([], .error .notFound)
  | some st =>
    match validateRecipients cfg rcpts with
    | some e => ([], .error e)
    | none =>
      if rcpts.isEmpty then ([], .error .emptyRecipientList)
      else
        match st with
        | .malformed => ([], .error .malformedMessage)
        | .wellFormed m =>
          match addressListOf m "From" with
          | .error _ => ([], .error .noSenderFound)
          | .ok [] => ([], .error .noSenderFound)
          | .ok (f0 :: _) =>
            match addressListOf m "Sender" with
            | .ok [] => ([], .error .senderIndexOutOfRange)
            | .ok (s0 :: _) => dispatchRelease m s0.address rcpts cfg dateNow sUUID sendErr
            | .error _ => dispatchRelease m f0.address rcpts cfg dateNow sUUID sendErr

/-- A header field whose name is none of the four that the release pipeline
may rewrite or remove (`Bcc`, `Return-Path`, `Date`, `Message-Id`). -/
def untouchedHeader (h : HeaderField) : Bool :=
  !(eqCI h.name "Bcc" || eqCI h.name "Return-Path" ||
    eqCI h.name "Date" || eqCI h.name "Message-Id")

/-! ## Helper lemmas about the header rewriter -/

theorem eqCI_refl (a : String) : eqCI a a = true := by
  simp [eqCI]

theorem eqCI_symm (a b : String) : eqCI a b = eqCI b a := by
  simp only [eqCI]
  by_cases h : lowerName a = lowerName b
  · simp [h]
  · have h2 : ¬lowerName b = lowerName a := fun hh => h hh.symm
    simp [h, h2]

theorem filter_of_subpred (p q : HeaderField → Bool)
    (himp : ∀ a, p a = true → q a = true) :
    ∀ l : List HeaderField, (l.filter q).filter p = l.filter p := by
  intro l
  induction l with
  | nil => rfl
  | cons h t ih =>
    by_cases hq : q h
    · by_cases hp : p h <;> simp [List.filter_cons, hq, hp, ih]
    · have hp : p h = false := by
        cases hph : p h
        · rfl
        · exact absurd (himp h hph) (by simp [hq])
      simp [List.filter_cons, hq, hp, ih]

theorem filter_removeHeadersList (p : HeaderField → Bool) (names : List String)
    (hp : ∀ a : HeaderField, (names.any (fun n => eqCI n a.name)) = true → p a = false)
    (hs : List HeaderField) :
    (removeHeadersList names hs).filter p = hs.filter p := by
  unfold removeHeadersList
  apply filter_of_subpred
  intro a hpa
  cases hany : names.any (fun n => eqCI n a.name)
  · simp
  · exact absurd hpa (by simp [hp a hany])

theorem filter_removeHeadersList_self (p : HeaderField → Bool) (names : List String)
    (hp : ∀ a : HeaderField, p a = true → (names.any (fun n => eqCI n a.name)) = true)
    (hs : List HeaderField) :
    (removeHeadersList names hs).filter p = [] := by
  rw [List.filter_eq_nil_iff]
  intro a ha
  unfold removeHeadersList at ha
  have hmem := List.mem_filter.mp ha
  intro hpa
  have := hp a (by simpa using hpa)
  simp [this] at hmem

theorem filter_replaceFirstHeader (n v : String) (p : HeaderField → Bool)
    (hp : ∀ h : HeaderField, eqCI h.name n = true → p h = false) :
    ∀ hs : List HeaderField, (replaceFirstHeader n v hs).filter p = hs.filter p := by
  intro hs
  induction hs with
  | nil => rfl
  | cons h t ih =>
    by_cases hci : eqCI h.name n
    · have hrepl : p ⟨h.name, v⟩ = false := hp ⟨h.name, v⟩ hci
      have hh : p h = false := hp h hci
      simp only [replaceFirstHeader, hci, if_true, List.filter_cons, hrepl, hh]
      simp only [Bool.false_eq_true, if_false]
      exact filter_removeHeadersList p [n]
        (fun a ha => hp a (by rw [eqCI_symm]; simpa using ha)) t
    · simp only [replaceFirstHeader, hci]
      simp only [Bool.false_eq_true, if_false, List.filter_cons, ih]

theorem filter_upsertHeaders (n v : String) (p : HeaderField → Bool)
    (hp : ∀ h : HeaderField, eqCI h.name n = true → p h = false)
    (hs : List HeaderField) :
    (upsertHeaders n v hs).filter p = hs.filter p := by
  unfold upsertHeaders
  by_cases hany : hs.any (fun h => eqCI h.name n)
  · simp only [hany, if_true]
    exact filter_replaceFirstHeader n v p hp hs
  · simp only [hany, Bool.false_eq_true, if_false, List.filter_append]
    simp [List.filter_cons, hp ⟨n, v⟩ (eqCI_refl n)]

theorem filter_updateMessageHeader (m : RawMessage) (n v : String)
    (p : HeaderField → Bool)
    (hp : ∀ h : HeaderField, eqCI h.name n = true → p h = false) :
    (updateMessageHeader m n v).headers.filter p = m.headers.filter p :=
  filter_upsertHeaders n v p hp m.headers

theorem upsertHeaders_cons_of_ne (n v : String) (h : HeaderField)
    (t : List HeaderField) (hne : eqCI h.name n = false) :
    upsertHeaders n v (h :: t) = h :: upsertHeaders n v t := by
  unfold upsertHeaders
  by_cases hany : t.any (fun x => eqCI x.name n)
  · simp [List.any_cons, hne, hany, replaceFirstHeader]
  · simp [List.any_cons, hne, hany]

theorem find_value_replaceFirst (n v : String) :
    ∀ hs : List HeaderField, hs.any (fun h => eqCI h.name n) = true →
    (match (replaceFirstHeader n v hs).find? (fun h => eqCI h.name n) with
     | some h => h.value
     | none => "") = v := by
  intro hs
  induction hs with
  | nil => intro hany; simp at hany
  | cons h t ih =>
    intro hany
    by_cases hci : eqCI h.name n
    · simp [replaceFirstHeader, hci, List.find?_cons]
    · have hany' : t.any (fun x => eqCI x.name n) = true := by
        simp only [List.any_cons, hci, Bool.false_or] at hany
        exact hany
      simp only [replaceFirstHeader, hci, Bool.false_eq_true, if_false]
      simp only [List.find?_cons, hci]
      exact ih hany'

theorem find_value_append_new (n v : String) :
    ∀ hs : List HeaderField, hs.any (fun h => eqCI h.name n) = false →
    (match (hs ++ [(⟨n, v⟩ : HeaderField)]).find? (fun h => eqCI h.name n) with
     | some h => h.value
     | none => "") = v := by
  intro hs
  induction hs with
  | nil => intro _; simp [List.find?_cons, eqCI_refl]
  | cons h t ih =>
    intro hany
    simp only [List.any_cons, Bool.or_eq_false_iff] at hany
    simp only [List.cons_append, List.find?_cons, hany.1]
    exact ih hany.2

theorem getHeaderValue_update_self (m : RawMessage) (n v : String) :
    getHeaderValue (updateMessageHeader m n v) n = v := by
  show (match (upsertHeaders n v m.headers).find? (fun h => eqCI h.name n) with
        | some h => h.value
        | none => "") = v
  unfold upsertHeaders
  cases hany : m.headers.any (fun h => eqCI h.name n)
  · simp only [Bool.false_eq_true, if_false]
    exact find_value_append_new n v m.headers hany
  · simp only [if_true]
    exact find_value_replaceFirst n v m.headers hany

theorem eqCI_chain {a n1 n2 : String} (h : eqCI a n1 = true)
    (hnn : eqCI n1 n2 = false) : eqCI a n2 = false := by
  simp only [eqCI, beq_iff_eq] at h
  simp only [eqCI] at hnn ⊢
  rw [h]
  exact hnn

theorem filter_cons_false {p : HeaderField → Bool} {a : HeaderField}
    (h : p a = false) (l : List HeaderField) :
    (a :: l).filter p = l.filter p := by
  simp [List.filter_cons, h]

theorem excl_of_name (p : HeaderField → Bool) (nm : String)
    (hp : ∀ h : HeaderField, eqCI h.name nm = true → p h = false) :
    ∀ a : HeaderField, ([nm].any (fun n => eqCI n a.name)) = true → p a = false := by
  intro a ha
  simp only [List.any_cons, List.any_nil, Bool.or_false] at ha
  exact hp a (by rw [eqCI_symm]; exact ha)

/-! ## Lemmas about the relay rewrite -/

theorem rewriteForRelay_filter (m : RawMessage) (cfg : RelayConfig) (d u : String)
    (p : HeaderField → Bool)
    (hBcc : ∀ h : HeaderField, eqCI h.name "Bcc" = true → p h = false)
    (hRP : ∀ h : HeaderField, eqCI h.name "Return-Path" = true → p h = false)
    (hD : ∀ h : HeaderField, eqCI h.name "Date" = true → p h = false)
    (hM : ∀ h : HeaderField, eqCI h.name "Message-Id" = true → p h = false) :
    (rewriteForRelay m cfg d u).headers.filter p = m.headers.filter p := by
  unfold rewriteForRelay
  simp only
  rw [filter_updateMessageHeader _ _ _ p hM, filter_updateMessageHeader _ _ _ p hD]
  by_cases hrp : cfg.returnPath = ""
  · simp only [hrp, if_true]
    exact filter_removeHeadersList p ["Bcc"] (excl_of_name p "Bcc" hBcc) m.headers
  · simp only [hrp, if_false]
    by_cases heq : getHeaderValue m "Return-Path" = "<" ++ cfg.returnPath ++ ">"
    · simp only [heq, if_true]
      exact filter_removeHeadersList p ["Bcc"] (excl_of_name p "Bcc" hBcc) m.headers
    · simp only [heq, if_false]
      show (HeaderField.mk "Return-Path" ("<" ++ cfg.returnPath ++ ">") ::
          removeHeadersList ["Return-Path"] (removeHeadersList ["Bcc"] m.headers)).filter p
        = m.headers.filter p
      rw [filter_cons_false
        (hRP ⟨"Return-Path", "<" ++ cfg.returnPath ++ ">"⟩ (eqCI_refl "Return-Path")) _]
      rw [filter_removeHeadersList p ["Return-Path"] (excl_of_name p "Return-Path" hRP)]
      exact filter_removeHeadersList p ["Bcc"] (excl_of_name p "Bcc" hBcc) m.headers

theorem rewriteForRelay_noBcc (m : RawMessage) (cfg : RelayConfig) (d u : String) :
    (rewriteForRelay m cfg d u).headers.filter (fun h => eqCI h.name "Bcc") = [] := by
  have hM : ∀ h : HeaderField, eqCI h.name "Message-Id" = true →
      (eqCI h.name "Bcc") = false :=
    fun h hh => eqCI_chain hh (by decide)
  have hD : ∀ h : HeaderField, eqCI h.name "Date" = true →
      (eqCI h.name "Bcc") = false :=
    fun h hh => eqCI_chain hh (by decide)
  have hRP : ∀ h : HeaderField, eqCI h.name "Return-Path" = true →
      (eqCI h.name "Bcc") = false :=
    fun h hh => eqCI_chain hh (by decide)
  have hself : ∀ a : HeaderField, (eqCI a.name "Bcc") = true →
      ([("Bcc" : String)].any (fun n => eqCI n a.name)) = true := by
    intro a ha
    simp only [List.any_cons, List.any_nil, Bool.or_false]
    rw [eqCI_symm]
    exact ha
  unfold rewriteForRelay
  simp only
  rw [filter_updateMessageHeader _ _ _ _ hM, filter_updateMessageHeader _ _ _ _ hD]
  by_cases hrp : cfg.returnPath = ""
  · simp only [hrp, if_true]
    exact filter_removeHeadersList_self _ ["Bcc"] hself m.headers
  · simp only [hrp, if_false]
    by_cases heq : getHeaderValue m "Return-Path" = "<" ++ cfg.returnPath ++ ">"
    · simp only [heq, if_true]
      exact filter_removeHeadersList_self _ ["Bcc"] hself m.headers
    · simp only [heq, if_false]
      show (HeaderField.mk "Return-Path" ("<" ++ cfg.returnPath ++ ">") ::
          removeHeadersList ["Return-Path"] (removeHeadersList ["Bcc"] m.headers)).filter
            (fun h => eqCI h.name "Bcc")
        = []
      rw [filter_cons_false
        (hRP ⟨"Return-Path", "<" ++ cfg.returnPath ++ ">"⟩ (eqCI_refl "Return-Path")) _]
      rw [filter_removeHeadersList _ ["Return-Path"] (excl_of_name _ "Return-Path" hRP)]
      exact filter_removeHeadersList_self _ ["Bcc"] hself m.headers

theorem rewriteForRelay_messageId (m : RawMessage) (cfg : RelayConfig) (d u : String) :
    getHeaderValue (rewriteForRelay m cfg d u) "Message-Id"
      = "<" ++ u ++ "@mailpit" ++ ">" := by
  unfold rewriteForRelay
  exact getHeaderValue_update_self _ _ _

theorem rewriteForRelay_filter_noRPrewrite (m : RawMessage) (cfg : RelayConfig)
    (d u : String) (p : HeaderField → Bool)
    (hBcc : ∀ h : HeaderField, eqCI h.name "Bcc" = true → p h = false)
    (hD : ∀ h : HeaderField, eqCI h.name "Date" = true → p h = false)
    (hM : ∀ h : HeaderField, eqCI h.name "Message-Id" = true → p h = false)
    (hbranch : cfg.returnPath = "" ∨
      getHeaderValue m "Return-Path" = "<" ++ cfg.returnPath ++ ">") :
    (rewriteForRelay m cfg d u).headers.filter p = m.headers.filter p := by
  unfold rewriteForRelay
  simp only
  rw [filter_updateMessageHeader _ _ _ p hM, filter_updateMessageHeader _ _ _ p hD]
  rcases hbranch with hrp | heq
  · simp only [hrp, if_true]
    exact filter_removeHeadersList p ["Bcc"] (excl_of_name p "Bcc" hBcc) m.headers
  · by_cases hrp : cfg.returnPath = ""
    · simp only [hrp, if_true]
      exact filter_removeHeadersList p ["Bcc"] (excl_of_name p "Bcc" hBcc) m.headers
    · simp only [hrp, if_false, heq, if_true]
      exact filter_removeHeadersList p ["Bcc"] (excl_of_name p "Bcc" hBcc) m.headers

theorem rewriteForRelay_rp_prepend (m : RawMessage) (cfg : RelayConfig)
    (d u : String) (hrp : cfg.returnPath ≠ "")
    (hne : getHeaderValue m "Return-Path" ≠ "<" ++ cfg.returnPath ++ ">") :
    ∃ rest, (rewriteForRelay m cfg d u).headers
        = ⟨"Return-Path", "<" ++ cfg.returnPath ++ ">"⟩ :: rest
      ∧ rest.filter (fun h => eqCI h.name "Return-Path") = [] := by
  have hD : eqCI ("Return-Path" : String) "Date" = false := by decide
  have hM : eqCI ("Return-Path" : String) "Message-Id" = false := by decide
  have hDrp : ∀ h : HeaderField, eqCI h.name "Date" = true →
      (eqCI h.name "Return-Path") = false :=
    fun h hh => eqCI_chain hh (by decide)
  have hMrp : ∀ h : HeaderField, eqCI h.name "Message-Id" = true →
      (eqCI h.name "Return-Path") = false :=
    fun h hh => eqCI_chain hh (by decide)
  have hselfRP : ∀ a : HeaderField, (eqCI a.name "Return-Path") = true →
      ([("Return-Path" : String)].any (fun n => eqCI n a.name)) = true := by
    intro a ha
    simp only [List.any_cons, List.any_nil, Bool.or_false]
    rw [eqCI_symm]
    exact ha
  unfold rewriteForRelay
  simp only [hrp, if_false, hne, updateMessageHeader]
  set cleaned := removeHeadersList ["Return-Path"]
    (removeMessageHeaders m ["Bcc"]).headers with hcleaned
  refine ⟨upsertHeaders "Message-Id" ("<" ++ u ++ "@mailpit" ++ ">")
    (upsertHeaders "Date" d cleaned), ?_, ?_⟩
  · show upsertHeaders "Message-Id" _ (upsertHeaders "Date" d
      (HeaderField.mk "Return-Path" ("<" ++ cfg.returnPath ++ ">") :: cleaned)) = _
    rw [upsertHeaders_cons_of_ne _ _ _ _ hD, upsertHeaders_cons_of_ne _ _ _ _ hM]
  · rw [filter_upsertHeaders _ _ _ hMrp, filter_upsertHeaders _ _ _ hDrp]
    exact filter_removeHeadersList_self _ ["Return-Path"] hselfRP _

/-! ## Lemmas about the release pipeline -/

theorem dispatchRelease_mem {m : RawMessage} {mfrom0 : String} {rcpts : List String}
    {cfg : RelayConfig} {d u : String} {se : Option String} {c : SendCall}
    (h : c ∈ (dispatchRelease m mfrom0 rcpts cfg d u se).1) :
    c = ⟨if cfg.returnPath = "" then mfrom0 else cfg.returnPath, rcpts,
         rewriteForRelay m cfg d u⟩ := by
  unfold dispatchRelease at h
  cases se <;> simpa using h

theorem releaseMessage_mem {stored : Option StoredMessage} {rcpts : List String}
    {cfg : RelayConfig} {d u : String} {se : Option String} {c : SendCall}
    (h : c ∈ (releaseMessage stored rcpts cfg d u se).1) :
    ∃ m mf0, stored = some (.wellFormed m) ∧
      c = ⟨if cfg.returnPath = "" then mf0 else cfg.returnPath, rcpts,
           rewriteForRelay m cfg d u⟩ := by
  unfold releaseMessage at h
  cases hstored : stored with
  | none => rw [hstored] at h; simp at h
  | some st =>
    rw [hstored] at h
    try simp only [] at h
    cases hval : validateRecipients cfg rcpts with
    | some e => rw [hval] at h; simp at h
    | none =>
      rw [hval] at h
      try simp only [] at h
      cases hemp : rcpts.isEmpty with
      | true => rw [hemp] at h; simp at h
      | false =>
        rw [hemp] at h
        simp only [Bool.false_eq_true, if_false] at h
        cases st with
        | malformed => simp at h
        | wellFormed m =>
          try simp only [] at h
          cases hfrom : addressListOf m "From" with
          | error e1 => rw [hfrom] at h; simp at h
          | ok froms =>
            rw [hfrom] at h
            cases froms with
            | nil => simp at h
            | cons f0 frest =>
              try simp only [] at h
              cases hsender : addressListOf m "Sender" with
              | error e2 =>
                rw [hsender] at h
                try simp only [] at h
                exact ⟨m, f0.address, rfl, dispatchRelease_mem h⟩
              | ok senders =>
                rw [hsender] at h
                cases senders with
                | nil => simp at h
                | cons s0 srest =>
                  try simp only [] at h
                  exact ⟨m, s0.address, rfl, dispatchRelease_mem h⟩

theorem releaseMessage_fail_no_send {stored : Option StoredMessage}
    {rcpts : List String} {cfg : RelayConfig} {d u : String} {se : Option String}
    {e : RelayError}
    (h : (releaseMessage stored rcpts cfg d u se).2 = .error e)
    (hne : ∀ s, e ≠ .deliveryFailed s) :
    (releaseMessage stored rcpts cfg d u se).1 = [] := by
  unfold releaseMessage at h ⊢
  cases hstored : stored with
  | none => rfl
  | some st =>
    rw [hstored] at h
    try simp only [] at h
    try simp only []
    cases hval : validateRecipients cfg rcpts with
    | some e1 => rfl
    | none =>
      rw [hval] at h
      try simp only [] at h
      try simp only []
      cases hemp : rcpts.isEmpty with
      | true => rfl
      | false =>
        rw [hemp] at h
        try simp only [Bool.false_eq_true, if_false] at h
        try simp only [Bool.false_eq_true, if_false]
        cases st with
        | malformed => rfl
        | wellFormed m =>
          try simp only [] at h
          try simp only []
          cases hfrom : addressListOf m "From" with
          | error e1 => rfl
          | ok froms =>
            rw [hfrom] at h
            cases froms with
            | nil => rfl
            | cons f0 frest =>
              try simp only [] at h
              try simp only []
              cases hsender : addressListOf m "Sender" with
              | error e2 =>
                rw [hsender] at h
                exfalso
                cases se with
                | none => simp [dispatchRelease] at h
                | some s =>
                  simp [dispatchRelease] at h
                  exact hne s h.symm
              | ok senders =>
                rw [hsender] at h
                cases senders with
                | nil => rfl
                | cons s0 srest =>
                  exfalso
                  cases se with
                  | none => simp [dispatchRelease] at h
                  | some s =>
                    simp [dispatchRelease] at h
                    exact hne s h.symm

/-! ## Claim theorems -/

/-- C2: for every release invocation that terminates in one of the failure
kinds NotFound, InvalidAddress, RecipientNotAllowed, EmptyRecipientList,
NoSenderFound or MalformedMessage, the outbound transport is never
invoked — the recorded list of `smtpd.Send` calls is empty. -/
theorem c2_failed_release_never_dispatches
    (stored : Option StoredMessage) (rcpts : List String) (cfg : RelayConfig)
    (d u : String) (se : Option String) (e : RelayError)
    (h : (releaseMessage stored rcpts cfg d u se).2 = .error e)
    (hkind : e = .notFound ∨ (∃ t, e = .invalidAddress t) ∨
      (∃ t, e = .recipientNotAllowed t) ∨ e = .emptyRecipientList ∨
      e = .noSenderFound ∨ e = .malformedMessage) :
    (releaseMessage stored rcpts cfg d u se).1 = [] := by
  apply releaseMessage_fail_no_send h
  intro s hds
  rcases hkind with h1 | ⟨t, h1⟩ | ⟨t, h1⟩ | h1 | h1 | h1 <;> subst h1 <;> simp at hds

/-- Witness for C2: a release of a missing message id fails with NotFound and
records no transport call. -/
theorem c2_failed_release_never_dispatches_witness :
    (releaseMessage none ["bob@example.com"] ⟨none, ""⟩ "D" "U" none).2
        = .error .notFound ∧
    (releaseMessage none ["bob@example.com"] ⟨none, ""⟩ "D" "U" none).1 = [] :=
  ⟨rfl, c2_failed_release_never_dispatches none ["bob@example.com"] ⟨none, ""⟩
    "D" "U" none .notFound rfl (Or.inl rfl)⟩

/-- C4 counterexample: with the single caller-supplied recipient string
`"Bob <bob@example.com>"`, the allowlist-checked normalized form is
`bob@example.com`, yet the transport receives the raw string
`"Bob <bob@example.com>"`, not its normalized address-only form — refuting
the claim that the recipients passed to the transport are the normalized
forms. -/
theorem c4_counterexample :
    parseSingleAddressTop "Bob <bob@example.com>"
        = .ok ⟨"Bob", "bob@example.com"⟩ ∧
    ((releaseMessage (some (.wellFormed ⟨[⟨"From", "alice@example.com"⟩], "B"⟩))
        ["Bob <bob@example.com>"] ⟨none, ""⟩ "D" "U" none).1.map SendCall.rcpt)
      = [["Bob <bob@example.com>"]] ∧
    ("Bob <bob@example.com>" : String) ≠ "bob@example.com" :=
  ⟨rfl, rfl, by decide⟩

/-- C4 amended: the recipient list handed to the outbound transport is the
caller-supplied list of strings verbatim (the normalized address-only form is
used only for the allowlist check). -/
theorem c4_transport_gets_raw_recipients
    {stored : Option StoredMessage} {rcpts : List String} {cfg : RelayConfig}
    {d u : String} {se : Option String} {c : SendCall}
    (hc : c ∈ (releaseMessage stored rcpts cfg d u se).1) :
    c.rcpt = rcpts := by
  obtain ⟨m, mf0, _, hceq⟩ := releaseMessage_mem hc
  subst hceq
  rfl

/-- Witness for C4 amended: the transport call of a concrete successful
release carries the caller's raw recipient string. -/
theorem c4_transport_gets_raw_recipients_witness :
    (⟨"alice@example.com", ["Bob <bob@example.com>"],
      ⟨[⟨"From", "alice@example.com"⟩, ⟨"Date", "D"⟩,
        ⟨"Message-Id", "<U@mailpit>"⟩], "B"⟩⟩ : SendCall).rcpt
      = ["Bob <bob@example.com>"] :=
  c4_transport_gets_raw_recipients
    (show _ ∈ (releaseMessage
        (some (.wellFormed ⟨[⟨"From", "alice@example.com"⟩], "B"⟩))
        ["Bob <bob@example.com>"] ⟨none, ""⟩ "D" "U" none).1 by decide)

/-- C5: the message handed to the transport carries
`Message-Id: <u@mailpit>` where `u` is the freshly generated token of this
invocation and `mailpit` is the fixed literal domain tag; whenever the fresh
identifier differs from the original `Message-Id` value (guaranteed up to
generator collisions), the relayed copy's `Message-Id` differs from the
original message's. -/
theorem c5_message_id_regenerated
    {stored : Option StoredMessage} {rcpts : List String} {cfg : RelayConfig}
    {d u : String} {se : Option String} {c : SendCall} {m : RawMessage}
    (hstored : stored = some (.wellFormed m))
    (hc : c ∈ (releaseMessage stored rcpts cfg d u se).1) :
    getHeaderValue c.msg "Message-Id" = "<" ++ u ++ "@mailpit" ++ ">" ∧
    ("<" ++ u ++ "@mailpit" ++ ">" ≠ getHeaderValue m "Message-Id" →
      getHeaderValue c.msg "Message-Id" ≠ getHeaderValue m "Message-Id") := by
  obtain ⟨m2, mf0, hst2, hceq⟩ := releaseMessage_mem hc
  rw [hstored] at hst2
  injection hst2 with hst2
  injection hst2 with hst2
  subst hst2
  subst hceq
  have h1 := rewriteForRelay_messageId m cfg d u
  exact ⟨h1, fun hf => by rw [h1]; exact hf⟩

/-- Witness for C5: a concrete release rewrites `Message-Id` from
`<orig@example.com>` to `<U1@mailpit>`. -/
theorem c5_message_id_regenerated_witness :
    getHeaderValue (⟨"alice@example.com", ["bob@example.com"],
        ⟨[⟨"From", "alice@example.com"⟩, ⟨"Message-Id", "<U1@mailpit>"⟩,
          ⟨"Date", "D"⟩], "B"⟩⟩ : SendCall).msg "Message-Id"
      = "<" ++ "U1" ++ "@mailpit" ++ ">" ∧
    ("<" ++ "U1" ++ "@mailpit" ++ ">"
        ≠ getHeaderValue ⟨[⟨"From", "alice@example.com"⟩,
            ⟨"Message-Id", "<orig@example.com>"⟩], "B"⟩ "Message-Id" →
      getHeaderValue (⟨"alice@example.com", ["bob@example.com"],
        ⟨[⟨"From", "alice@example.com"⟩, ⟨"Message-Id", "<U1@mailpit>"⟩,
          ⟨"Date", "D"⟩], "B"⟩⟩ : SendCall).msg "Message-Id"
        ≠ getHeaderValue ⟨[⟨"From", "alice@example.com"⟩,
            ⟨"Message-Id", "<orig@example.com>"⟩], "B"⟩ "Message-Id") :=
  c5_message_id_regenerated (m := ⟨[⟨"From", "alice@example.com"⟩,
      ⟨"Message-Id", "<orig@example.com>"⟩], "B"⟩) rfl
    (show _ ∈ (releaseMessage
        (some (.wellFormed ⟨[⟨"From", "alice@example.com"⟩,
          ⟨"Message-Id", "<orig@example.com>"⟩], "B"⟩))
        ["bob@example.com"] ⟨none, ""⟩ "D" "U1" none).1 by decide)

/-- C6: whenever the Return-Path override is configured (non-empty), the
envelope sender of every recorded transport call equals the override address,
whatever the message's `Sender`/`From` headers or `Return-Path` field say. -/
theorem c6_override_forces_envelope_sender
    {stored : Option StoredMessage} {rcpts : List String} {cfg : RelayConfig}
    {d u : String} {se : Option String} {c : SendCall}
    (hrp : cfg.returnPath ≠ "")
    (hc : c ∈ (releaseMessage stored rcpts cfg d u se).1) :
    c.mfrom = cfg.returnPath := by
  obtain ⟨m, mf0, _, hceq⟩ := releaseMessage_mem hc
  subst hceq
  simp [if_neg hrp]

/-- Witness for C6: with the override configured and the message's
`Return-Path` already equal to `<override>` (so no rewrite happens), the
envelope sender is still the override, not the From-derived sender. -/
theorem c6_override_forces_envelope_sender_witness :
    (("rp@example.com" : String) ≠ "") ∧
    (⟨"rp@example.com", ["bob@example.com"],
      ⟨[⟨"From", "alice@example.com"⟩, ⟨"Return-Path", "<rp@example.com>"⟩,
        ⟨"Date", "D1"⟩, ⟨"Message-Id", "<u1@mailpit>"⟩], "B"⟩⟩ : SendCall).mfrom
      = "rp@example.com" :=
  ⟨by decide, c6_override_forces_envelope_sender
    (show (⟨none, "rp@example.com"⟩ : RelayConfig).returnPath ≠ "" by decide)
    (show _ ∈ (releaseMessage
        (some (.wellFormed ⟨[⟨"From", "alice@example.com"⟩,
          ⟨"Return-Path", "<rp@example.com>"⟩], "B"⟩))
        ["bob@example.com"] ⟨none, "rp@example.com"⟩ "D1" "u1" none).1
      by decide)⟩

/-- C1 counterexample: for a stored message containing a `Bcc` header and a
`Date` header, the message handed to the transport has its `Date` value
replaced by the relay-time date, so not every non-Bcc header retains its
original value — refuting the claim for the message handed to the
transport. -/
theorem c1_counterexample :
    ((releaseMessage (some (.wellFormed ⟨[⟨"From", "alice@example.com"⟩,
        ⟨"Bcc", "secret@example.com"⟩,
        ⟨"Date", "Mon, 01 Jan 2001 00:00:00 +0000"⟩], "B"⟩))
        ["bob@example.com"] ⟨none, ""⟩ "NEWDATE" "U" none).1.map
          (fun c => getHeaderValue c.msg "Date")) = ["NEWDATE"] ∧
    getHeaderValue ⟨[⟨"From", "alice@example.com"⟩,
        ⟨"Bcc", "secret@example.com"⟩,
        ⟨"Date", "Mon, 01 Jan 2001 00:00:00 +0000"⟩], "B"⟩ "Date"
      = "Mon, 01 Jan 2001 00:00:00 +0000" ∧
    ("NEWDATE" : String) ≠ "Mon, 01 Jan 2001 00:00:00 +0000" :=
  ⟨rfl, rfl, by decide⟩

/-- C1 amended: for every stored message containing a `Bcc` header, the
message handed to the transport contains no `Bcc` header field, and every
non-Bcc header field other than `Return-Path`, `Date` and `Message-Id`
(which later pipeline steps may rewrite) retains its original value and its
relative order from the original message. -/
theorem c1_bcc_stripped_others_preserved
    {stored : Option StoredMessage} {rcpts : List String} {cfg : RelayConfig}
    {d u : String} {se : Option String} {c : SendCall} {m : RawMessage}
    (hstored : stored = some (.wellFormed m))
    (_hBcc : m.headers.any (fun h => eqCI h.name "Bcc") = true)
    (hc : c ∈ (releaseMessage stored rcpts cfg d u se).1) :
    c.msg.headers.filter (fun h => eqCI h.name "Bcc") = [] ∧
    c.msg.headers.filter untouchedHeader = m.headers.filter untouchedHeader := by
  obtain ⟨m2, mf0, hst2, hceq⟩ := releaseMessage_mem hc
  rw [hstored] at hst2
  injection hst2 with hst2
  injection hst2 with hst2
  subst hst2
  subst hceq
  refine ⟨rewriteForRelay_noBcc m cfg d u, ?_⟩
  apply rewriteForRelay_filter
  · intro h hh; simp [untouchedHeader, hh]
  · intro h hh; simp [untouchedHeader, hh]
  · intro h hh; simp [untouchedHeader, hh]
  · intro h hh; simp [untouchedHeader, hh]

/-- Witness for C1 amended: a concrete release strips the `Bcc` field and
leaves the `Received`, `From` and `Subject` fields' values and order intact. -/
theorem c1_bcc_stripped_others_preserved_witness :
    ((⟨[⟨"Received", "r1"⟩, ⟨"From", "alice@example.com"⟩,
        ⟨"Bcc", "secret@example.com"⟩, ⟨"Subject", "hi"⟩], "B"⟩ :
        RawMessage).headers.any (fun h => eqCI h.name "Bcc") = true) ∧
    (⟨"alice@example.com", ["bob@example.com"],
      ⟨[⟨"Received", "r1"⟩, ⟨"From", "alice@example.com"⟩, ⟨"Subject", "hi"⟩,
        ⟨"Date", "D"⟩, ⟨"Message-Id", "<U@mailpit>"⟩], "B"⟩⟩ :
        SendCall).msg.headers.filter (fun h => eqCI h.name "Bcc") = [] ∧
    (⟨"alice@example.com", ["bob@example.com"],
      ⟨[⟨"Received", "r1"⟩, ⟨"From", "alice@example.com"⟩, ⟨"Subject", "hi"⟩,
        ⟨"Date", "D"⟩, ⟨"Message-Id", "<U@mailpit>"⟩], "B"⟩⟩ :
        SendCall).msg.headers.filter untouchedHeader
      = (⟨[⟨"Received", "r1"⟩, ⟨"From", "alice@example.com"⟩,
          ⟨"Bcc", "secret@example.com"⟩, ⟨"Subject", "hi"⟩], "B"⟩ :
          RawMessage).headers.filter untouchedHeader :=
  ⟨by decide, c1_bcc_stripped_others_preserved rfl (by decide)
    (show _ ∈ (releaseMessage
        (some (.wellFormed ⟨[⟨"Received", "r1"⟩, ⟨"From", "alice@example.com"⟩,
          ⟨"Bcc", "secret@example.com"⟩, ⟨"Subject", "hi"⟩], "B"⟩))
        ["bob@example.com"] ⟨none, ""⟩ "D" "U" none).1 by decide)⟩

/-- C7: when the Return-Path override is configured and the stored message's
`Return-Path` header already equals `<override>`, the rewritten message
handed to the transport carries exactly the original `Return-Path` fields,
unchanged — no removal or reinsertion took place. -/
theorem c7_return_path_untouched_when_equal
    {stored : Option StoredMessage} {rcpts : List String} {cfg : RelayConfig}
    {d u : String} {se : Option String} {c : SendCall} {m : RawMessage}
    (hstored : stored = some (.wellFormed m))
    (_hrp : cfg.returnPath ≠ "")
    (heq : getHeaderValue m "Return-Path" = "<" ++ cfg.returnPath ++ ">")
    (hc : c ∈ (releaseMessage stored rcpts cfg d u se).1) :
    c.msg.headers.filter (fun h => eqCI h.name "Return-Path")
      = m.headers.filter (fun h => eqCI h.name "Return-Path") := by
  obtain ⟨m2, mf0, hst2, hceq⟩ := releaseMessage_mem hc
  rw [hstored] at hst2
  injection hst2 with hst2
  injection hst2 with hst2
  subst hst2
  subst hceq
  apply rewriteForRelay_filter_noRPrewrite
  · intro h hh; exact eqCI_chain hh (by decide)
  · intro h hh; exact eqCI_chain hh (by decide)
  · intro h hh; exact eqCI_chain hh (by decide)
  · exact Or.inr heq

/-- Witness for C7: a concrete release with the override equal to the
existing `Return-Path` leaves that field byte-identical in the message
handed to the transport. -/
theorem c7_return_path_untouched_when_equal_witness :
    (("rp@example.com" : String) ≠ "") ∧
    getHeaderValue ⟨[⟨"From", "alice@example.com"⟩,
        ⟨"Return-Path", "<rp@example.com>"⟩], "B"⟩ "Return-Path"
      = "<" ++ "rp@example.com" ++ ">" ∧
    (⟨"rp@example.com", ["bob@example.com"],
      ⟨[⟨"From", "alice@example.com"⟩, ⟨"Return-Path", "<rp@example.com>"⟩,
        ⟨"Date", "D1"⟩, ⟨"Message-Id", "<u1@mailpit>"⟩], "B"⟩⟩ :
        SendCall).msg.headers.filter (fun h => eqCI h.name "Return-Path")
      = (⟨[⟨"From", "alice@example.com"⟩,
          ⟨"Return-Path", "<rp@example.com>"⟩], "B"⟩ :
          RawMessage).headers.filter (fun h => eqCI h.name "Return-Path") :=
  ⟨by decide, by decide, c7_return_path_untouched_when_equal rfl
    (show (⟨none, "rp@example.com"⟩ : RelayConfig).returnPath ≠ "" by decide)
    (by decide)
    (show _ ∈ (releaseMessage
        (some (.wellFormed ⟨[⟨"From", "alice@example.com"⟩,
          ⟨"Return-Path", "<rp@example.com>"⟩], "B"⟩))
        ["bob@example.com"] ⟨none, "rp@example.com"⟩ "D1" "u1" none).1
      by decide)⟩

/-- C8 counterexample: with the override configured and no matching
`Return-Path` present, the rewritten message handed to the transport has the
new `Return-Path` field as its FIRST header field, with the pre-existing
`From` field and the appended `Date`/`Message-Id` fields after it — the new
field is prepended to the header block, not appended at its end as Upsert
semantics (and the claim) would place it. -/
theorem c8_counterexample :
    ((releaseMessage (some (.wellFormed ⟨[⟨"From", "alice@example.com"⟩], "B"⟩))
        ["bob@example.com"] ⟨none, "rp@example.com"⟩ "D" "U" none).1.map
          (fun c => c.msg.headers.map HeaderField.name))
      = [["Return-Path", "From", "Date", "Message-Id"]] ∧
    (["Return-Path", "From", "Date", "Message-Id"].getLast?
      ≠ some "Return-Path") :=
  ⟨rfl, by decide⟩

/-- C8 amended: when the override is configured and the message's
`Return-Path` differs from `<override>`, the newly written
`Return-Path: <override>` field is PREPENDED as the first field of the header
block (any pre-existing `Return-Path` having been removed, no other
`Return-Path` field remains). -/
theorem c8_return_path_prepended
    {stored : Option StoredMessage} {rcpts : List String} {cfg : RelayConfig}
    {d u : String} {se : Option String} {c : SendCall} {m : RawMessage}
    (hstored : stored = some (.wellFormed m))
    (hrp : cfg.returnPath ≠ "")
    (hne : getHeaderValue m "Return-Path" ≠ "<" ++ cfg.returnPath ++ ">")
    (hc : c ∈ (releaseMessage stored rcpts cfg d u se).1) :
    c.msg.headers.head? = some ⟨"Return-Path", "<" ++ cfg.returnPath ++ ">"⟩ ∧
    c.msg.headers.tail.filter (fun h => eqCI h.name "Return-Path") = [] := by
  obtain ⟨m2, mf0, hst2, hceq⟩ := releaseMessage_mem hc
  rw [hstored] at hst2
  injection hst2 with hst2
  injection hst2 with hst2
  subst hst2
  subst hceq
  obtain ⟨rest, hheads, hrest⟩ := rewriteForRelay_rp_prepend m cfg d u hrp hne
  show (rewriteForRelay m cfg d u).headers.head? = _ ∧
    (rewriteForRelay m cfg d u).headers.tail.filter _ = []
  rw [hheads]
  exact ⟨rfl, hrest⟩

/-- Witness for C8 amended: a concrete release with the override configured
and no matching `Return-Path` prepends the new field at the head of the
header block. -/
theorem c8_return_path_prepended_witness :
    (("rp@example.com" : String) ≠ "") ∧
    (getHeaderValue ⟨[⟨"From", "alice@example.com"⟩], "B"⟩ "Return-Path"
      ≠ "<" ++ "rp@example.com" ++ ">") ∧
    (⟨"rp@example.com", ["bob@example.com"],
      ⟨[⟨"Return-Path", "<rp@example.com>"⟩, ⟨"From", "alice@example.com"⟩,
        ⟨"Date", "D"⟩, ⟨"Message-Id", "<U@mailpit>"⟩], "B"⟩⟩ :
        SendCall).msg.headers.head?
      = some ⟨"Return-Path", "<" ++ "rp@example.com" ++ ">"⟩ ∧
    (⟨"rp@example.com", ["bob@example.com"],
      ⟨[⟨"Return-Path", "<rp@example.com>"⟩, ⟨"From", "alice@example.com"⟩,
        ⟨"Date", "D"⟩, ⟨"Message-Id", "<U@mailpit>"⟩], "B"⟩⟩ :
        SendCall).msg.headers.tail.filter (fun h => eqCI h.name "Return-Path")
      = [] :=
  ⟨by decide, by decide,
    (c8_return_path_prepended rfl
      (show (⟨none, "rp@example.com"⟩ : RelayConfig).returnPath ≠ "" by decide)
      (by decide)
      (show _ ∈ (releaseMessage
          (some (.wellFormed ⟨[⟨"From", "alice@example.com"⟩], "B"⟩))
          ["bob@example.com"] ⟨none, "rp@example.com"⟩ "D" "U" none).1
        by decide)).1,
    (c8_return_path_prepended rfl
      (show (⟨none, "rp@example.com"⟩ : RelayConfig).returnPath ≠ "" by decide)
      (by decide)
      (show _ ∈ (releaseMessage
          (some (.wellFormed ⟨[⟨"From", "alice@example.com"⟩], "B"⟩))
          ["bob@example.com"] ⟨none, "rp@example.com"⟩ "D" "U" none).1
        by decide)).2⟩

/-- C3 counterexample: a stored message with no `From` header released while
the Return-Path override IS configured still fails at sender resolution
(`NoSenderFound`): the override does not substitute for a missing `From`
header, because the pipeline aborts on the `From` parse before the override
is consulted. -/
theorem c3_counterexample :
    ((⟨none, "rp@example.com"⟩ : RelayConfig).returnPath ≠ "") ∧
    releaseMessage (some (.wellFormed ⟨[⟨"Subject", "hi"⟩], "B"⟩))
        ["bob@example.com"] ⟨none, "rp@example.com"⟩ "D" "U" none
      = ([], .error .noSenderFound) :=
  ⟨by decide, rfl⟩

/-- C3 amended: once a release passes recipient validation with a non-empty
recipient list and a well-formed stored message, it fails at sender
resolution with `NoSenderFound` exactly when the message's `From` header is
absent/unparseable or parses to an empty address list — regardless of whether
the Return-Path override is configured (the override only replaces the
sender after `From` parses; it does not prevent this failure). -/
theorem c3_no_sender_iff_from_unusable
    (rcpts : List String) (cfg : RelayConfig) (d u : String) (se : Option String)
    (m : RawMessage)
    (hval : validateRecipients cfg rcpts = none)
    (hemp : rcpts.isEmpty = false) :
    ((releaseMessage (some (.wellFormed m)) rcpts cfg d u se).2
        = .error .noSenderFound) ↔
      ((∃ e1, addressListOf m "From" = .error e1) ∨
        addressListOf m "From" = .ok []) := by
  unfold releaseMessage
  rw [hval, hemp]
  try simp only []
  simp only [Bool.false_eq_true, if_false]
  cases hfrom : addressListOf m "From" with
  | error e1 => simp
  | ok froms =>
    cases froms with
    | nil => simp
    | cons f0 frest =>
      cases hsender : addressListOf m "Sender" with
      | error e2 =>
        cases se with
        | none => simp [dispatchRelease]
        | some s => simp [dispatchRelease]
      | ok senders =>
        cases senders with
        | nil => simp
        | cons s0 srest =>
          cases se with
          | none => simp [dispatchRelease]
          | some s => simp [dispatchRelease]

/-- Witness for C3 amended: with the override configured, a message without a
`From` header satisfies both sides of the equivalence. -/
theorem c3_no_sender_iff_from_unusable_witness :
    validateRecipients ⟨none, "rp@example.com"⟩ ["bob@example.com"] = none ∧
    (["bob@example.com"] : List String).isEmpty = false ∧
    (((releaseMessage (some (.wellFormed ⟨[⟨"Subject", "hi"⟩], "B"⟩))
          ["bob@example.com"] ⟨none, "rp@example.com"⟩ "D" "U" none).2
        = .error .noSenderFound) ↔
      ((∃ e1, addressListOf ⟨[⟨"Subject", "hi"⟩], "B"⟩ "From" = .error e1) ∨
        addressListOf ⟨[⟨"Subject", "hi"⟩], "B"⟩ "From" = .ok [])) :=
  ⟨rfl, rfl, c3_no_sender_iff_from_unusable ["bob@example.com"]
    ⟨none, "rp@example.com"⟩ "D" "U" none ⟨[⟨"Subject", "hi"⟩], "B"⟩ rfl rfl⟩

theorem validateRecipients_first_disallowed (cfg : RelayConfig)
    (pat : String → Bool) (hpat : cfg.allowedRecipients = some pat) :
    ∀ (to1 : List String),
      (∀ r ∈ to1, ∃ b, parseSingleAddressTop r = .ok b ∧ pat b.address = true) →
      ∀ (t : String) (to2 : List String) (a : GoAddress),
        parseSingleAddressTop t = .ok a → pat a.address = false →
        validateRecipients cfg (to1 ++ t :: to2)
          = some (.recipientNotAllowed t) := by
  intro to1
  induction to1 with
  | nil =>
    intro _ t to2 a hparse hfail
    show validateRecipients cfg (t :: to2) = _
    unfold validateRecipients
    rw [hparse, hpat]
    simp [hfail]
  | cons r rest ih =>
    intro hall t to2 a hparse hfail
    obtain ⟨b, hb, hpb⟩ := hall r (by simp)
    show validateRecipients cfg (r :: (rest ++ t :: to2)) = _
    unfold validateRecipients
    rw [hb, hpat]
    simp only [hpb, if_true]
    exact ih (fun x hx => hall x (by simp [hx])) t to2 a hparse hfail

/-- C9 amended: with an allowlist configured, if every recipient before the
first offender parses and matches the allowlist, and the first offender
parses to a normalized address that does not match, then the release fails
with `RecipientNotAllowed` reporting that recipient, and the transport is
never invoked (the recorded call list is empty); this holds for any stored
message, even a malformed one, because recipient validation precedes message
parsing.  (As stated the claim is broader: if an earlier recipient fails to
parse, the release instead fails with `InvalidAddress` — see the
counterexample.) -/
theorem c9_first_disallowed_recipient_aborts
    (st : StoredMessage) (cfg : RelayConfig) (pat : String → Bool)
    (d u : String) (se : Option String)
    (to1 : List String) (t : String) (to2 : List String) (a : GoAddress)
    (hpat : cfg.allowedRecipients = some pat)
    (hall : ∀ r ∈ to1, ∃ b, parseSingleAddressTop r = .ok b ∧ pat b.address = true)
    (hparse : parseSingleAddressTop t = .ok a)
    (hfail : pat a.address = false) :
    releaseMessage (some st) (to1 ++ t :: to2) cfg d u se
      = ([], .error (.recipientNotAllowed t)) := by
  have hv := validateRecipients_first_disallowed cfg pat hpat to1 hall t to2 a
    hparse hfail
  unfold releaseMessage
  rw [hv]

/-- C9 counterexample: with an allowlist configured and a recipient present
whose normalized address does not match it (`eve@attacker.test`), the
release nevertheless fails with `InvalidAddress` for the earlier
unparseable recipient `"@@"`, not with `RecipientNotAllowed` — refuting the
claim as stated (the transport is still never invoked). -/
theorem c9_counterexample :
    (∃ a, parseSingleAddressTop "eve@attacker.test" = .ok a ∧
      (fun s => s == "bob@example.com") a.address = false) ∧
    releaseMessage (some (.wellFormed ⟨[⟨"From", "alice@example.com"⟩], "B"⟩))
        ["@@", "eve@attacker.test"]
        ⟨some (fun s => s == "bob@example.com"), ""⟩ "D" "U" none
      = ([], .error (.invalidAddress "@@")) ∧
    RelayError.invalidAddress "@@" ≠ .recipientNotAllowed "eve@attacker.test" :=
  ⟨⟨⟨"", "eve@attacker.test"⟩, rfl, rfl⟩, rfl, by decide⟩

/-- Witness for C9 amended: a release towards an allowed recipient followed
by a disallowed one fails with `RecipientNotAllowed` naming the disallowed
recipient and records no transport call — even on a malformed stored
message. -/
theorem c9_first_disallowed_recipient_aborts_witness :
    releaseMessage (some .malformed) ["bob@example.com", "eve@attacker.test"]
        ⟨some (fun s => s == "bob@example.com"), ""⟩ "D" "U" none
      = ([], .error (.recipientNotAllowed "eve@attacker.test")) :=
  c9_first_disallowed_recipient_aborts .malformed
    ⟨some (fun s => s == "bob@example.com"), ""⟩
    (fun s => s == "bob@example.com") "D" "U" none
    ["bob@example.com"] "eve@attacker.test" [] ⟨"", "eve@attacker.test"⟩ rfl
    (by
      intro r hr
      simp only [List.mem_singleton] at hr
      subst hr
      exact ⟨⟨"", "bob@example.com"⟩, rfl, rfl⟩)
    rfl rfl

/-- C10: Go's `net/mail` address-list parser returns an EMPTY list with no
error for a `Sender` header consisting of an empty RFC 5322 group
(`undisclosed-recipients:;`), so the pipeline's unguarded `senders[0]`
access is out of bounds on such a message (a run-time panic in the source),
contradicting the claim that a successful parse always yields a non-empty
list.  The release below reaches exactly that access. -/
theorem c10_empty_group_sender_out_of_bounds :
    parseAddressListTop "undisclosed-recipients:;" = .ok [] ∧
    releaseMessage (some (.wellFormed ⟨[⟨"From", "alice@example.com"⟩,
        ⟨"Sender", "undisclosed-recipients:;"⟩], "B"⟩))
      ["bob@example.com"] ⟨none, ""⟩ "D" "U" none
      = ([], .error .senderIndexOutOfRange) :=
  ⟨rfl, rfl⟩

end Mailpit
